import Mathlib

/-!
Shallow embedding of `src/Krisjanis_Binovskis/analysis/fetch_and_process_players.py`.

The script is a single linear table-transformation pipeline:
column projection, a games-played filter, numeric coercion with
row dropping, min-max normalization of derived columns, a weighted
impact score, quantile-based tier labels, and a final projection.

Columns are modelled as `List ℚ` and tables as lists of row
structures.  Raw numeric fields that may fail to parse are
`Option ℚ` (`none` models `pd.to_numeric(..., errors="coerce")`
producing NaN, which `dropna` then removes).
-/

/-- A raw fetched row, restricted to the eight projected columns
(`df = df[cols].copy()` in the script).  The six numeric stat
fields may be malformed, hence `Option ℚ`. -/
structure RawRow where
  player_name : String
  gp : ℚ
  pts : Option ℚ
  reb : Option ℚ
  ast : Option ℚ
  tov : Option ℚ
  fg_pct : Option ℚ
  fg3_pct : Option ℚ
  deriving DecidableEq, Repr

/-- A row after numeric coercion succeeded on all six stat fields
(the rows surviving `df.dropna()`). -/
structure NumRow where
  player_name : String
  gp : ℚ
  pts : ℚ
  reb : ℚ
  ast : ℚ
  tov : ℚ
  fg_pct : ℚ
  fg3_pct : ℚ
  deriving DecidableEq, Repr

/-- A processed output row: the columns of `players_processed.csv`. -/
structure ProcRow where
  player_name : String
  height_m : ℚ
  weight_kg : ℚ
  scoring : ℚ
  playmaking : ℚ
  discipline : ℚ
  luck_factor : ℚ
  tier : String
  deriving DecidableEq, Repr

instance : Inhabited NumRow :=
  ⟨{ player_name := "", gp := 0, pts := 0, reb := 0, ast := 0, tov := 0,
     fg_pct := 0, fg3_pct := 0 }⟩

instance : Inhabited ProcRow :=
  ⟨{ player_name := "", height_m := 0, weight_kg := 0, scoring := 0,
     playmaking := 0, discipline := 0, luck_factor := 0, tier := "" }⟩

/-- `series.min()` of a column (value irrelevant on an empty column,
where the script's `norm` maps the empty series to itself). -/
def listMin : List ℚ → ℚ
  | [] => 0
  | x :: xs => xs.foldl min x

/-- `series.max()` of a column. -/
def listMax : List ℚ → ℚ
  | [] => 0
  | x :: xs => xs.foldl max x

/-- The `1e-9` guard added to the range in `norm`. -/
def eps : ℚ := 1 / 1000000000

/-- `norm(series) = (series - series.min()) / (series.max() - series.min() + 1e-9)`. -/
def norm (xs : List ℚ) : List ℚ :=
  xs.map (fun v => (v - listMin xs) / (listMax xs - listMin xs + eps))

/-- The scalar value `norm` assigns to `v` in the context of column `xs`. -/
def normVal (xs : List ℚ) (v : ℚ) : ℚ :=
  (v - listMin xs) / (listMax xs - listMin xs + eps)

/-- `pd.to_numeric` on the six stat fields followed by `dropna()`:
the row survives iff every stat field parsed; surviving values are
taken verbatim, the name and games-played count are kept. -/
def coerceRow (r : RawRow) : Option NumRow :=
  match r.pts, r.reb, r.ast, r.tov, r.fg_pct, r.fg3_pct with
  | some pts, some reb, some ast, some tov, some fg, some fg3 =>
      some { player_name := r.player_name, gp := r.gp, pts := pts, reb := reb,
             ast := ast, tov := tov, fg_pct := fg, fg3_pct := fg3 }
  | _, _, _, _, _, _ => none

/-- The rows reaching the attribute computation: the games-played
filter `df = df[df["GP"] >= 15]` followed by coercion and `dropna`. -/
def survivors (rows : List RawRow) : List NumRow :=
  (rows.filter (fun r => 15 ≤ r.gp)).filterMap coerceRow

/-- `norm(df["PTS"] + 5 * df["FG_PCT"])`. -/
def scoringList (rs : List NumRow) : List ℚ :=
  norm (rs.map (fun r => r.pts + 5 * r.fg_pct))

/-- `norm(df["AST"] - 0.5 * df["TOV"])`. -/
def playmakingList (rs : List NumRow) : List ℚ :=
  norm (rs.map (fun r => r.ast - (1/2) * r.tov))

/-- `norm(-df["TOV"])`. -/
def disciplineList (rs : List NumRow) : List ℚ :=
  norm (rs.map (fun r => -r.tov))

/-- Pointwise ternary zip, used for the weighted impact column. -/
def zipWith3 (f : α → β → γ → δ) : List α → List β → List γ → List δ
  | a :: as, b :: bs, c :: cs => f a b c :: zipWith3 f as bs cs
  | _, _, _ => []

/-- `impact_raw = 0.5 * scoring + 0.3 * playmaking + 0.2 * discipline`. -/
def impactList (rs : List NumRow) : List ℚ :=
  zipWith3 (fun s p d => (1/2) * s + (3/10) * p + (1/5) * d)
    (scoringList rs) (playmakingList rs) (disciplineList rs)

/-- `luck_factor = norm(df["impact_raw"])`. -/
def luckList (rs : List NumRow) : List ℚ :=
  norm (impactList rs)

/-- `Series.quantile(q)` with the default linear interpolation:
sort the column, take the virtual index `h = q * (n - 1)`, and
interpolate between the neighbouring order statistics. -/
def quantile (xs : List ℚ) (q : ℚ) : ℚ :=
  let s := List.insertionSort (fun a b => a ≤ b) xs
  let n := s.length
  if n = 0 then 0
  else
    let pos : ℚ := q * ((n : ℚ) - 1)
    let i : ℕ := (Int.toNat ⌊pos⌋)
    let frac : ℚ := pos - (i : ℚ)
    let lo := s.getD i 0
    let hi := s.getD (min (i + 1) (n - 1)) 0
    lo + (hi - lo) * frac

/-- `df["impact_raw"].quantile(0.2)` over the surviving batch. -/
def q_low (rs : List NumRow) : ℚ := quantile (impactList rs) (1/5)

/-- `df["impact_raw"].quantile(0.8)` over the surviving batch. -/
def q_high (rs : List NumRow) : ℚ := quantile (impactList rs) (4/5)

/-- The `tier_row` closure of the script, with the two quantile
thresholds it captures passed explicitly. -/
def tier_row (ql qh impact : ℚ) : String :=
  if impact ≤ ql then "bust"
  else if qh ≤ impact then "star"
  else "role_player"

/-- Assemble the processed table from the surviving rows: the four
normalized attribute columns, the tier label, and the constant
height/weight placeholders, in the final projection order. -/
def processSurv (rs : List NumRow) : List ProcRow :=
  let sc := scoringList rs
  let pm := playmakingList rs
  let dc := disciplineList rs
  let im := impactList rs
  let lk := luckList rs
  let ql := q_low rs
  let qh := q_high rs
  (List.range rs.length).map (fun i =>
    { player_name := (rs.getD i default).player_name
      height_m := 2
      weight_kg := 100
      scoring := sc.getD i 0
      playmaking := pm.getD i 0
      discipline := dc.getD i 0
      luck_factor := lk.getD i 0
      tier := tier_row ql qh (im.getD i 0) })

/-- The full table transformation of `main` after the fetch. -/
def process (rows : List RawRow) : List ProcRow :=
  processSurv (survivors rows)

/-- The script's observable file output: `players_raw.csv` is the
fetched table written verbatim before any transformation, and
`players_processed.csv` is the processed table. -/
def transform (rows : List RawRow) : List RawRow × List ProcRow :=
  (rows, process rows)

/-! ### Sample tables used to instantiate the theorems -/

/-- A fully well-formed raw row with the given name, games-played
count and points; the remaining stats are fixed small values. -/
def mkRow (nm : String) (g : ℚ) (p : ℚ) : RawRow :=
  { player_name := nm, gp := g, pts := some p, reb := some 3, ast := some 4,
    tov := some 2, fg_pct := some (1/2), fg3_pct := some (1/3) }

/-- The coerced form of `mkRow`. -/
def mkNum (nm : String) (g : ℚ) (p : ℚ) : NumRow :=
  { player_name := nm, gp := g, pts := p, reb := 3, ast := 4,
    tov := 2, fg_pct := 1/2, fg3_pct := 1/3 }

/-- A raw row passing the games-played filter whose points field
failed numeric parsing. -/
def badRow : RawRow :=
  { player_name := "bad", gp := 20, pts := none, reb := some 3, ast := some 4,
    tov := some 2, fg_pct := some (1/2), fg3_pct := some (1/3) }

/-- A two-row sample table whose rows both survive. -/
def rowsAB : List RawRow := [mkRow "A" 20 10, mkRow "B" 30 20]

/-- The spec's games-played example: values 10, 20 and 30. -/
def rowsGP : List RawRow := [mkRow "a" 10 1, mkRow "b" 20 1, mkRow "c" 30 1]

/-- A table with one row failing the volume filter and one survivor. -/
def rows9 : List RawRow := [mkRow "low" 5 1, mkRow "hi" 20 1]

/-- A single-row table, exercising the degenerate quantile case where
the 20th and 80th percentiles coincide. -/
def rowsSolo : List RawRow := [mkRow "solo" 20 10]

/-- Two raw rows that agree on every collected field except possibly
their rebounds and three-point-percentage values, both of which parse
in each row. -/
def rawAgree (a b : RawRow) : Prop :=
  a.player_name = b.player_name ∧ a.gp = b.gp ∧ a.pts = b.pts ∧ a.ast = b.ast ∧
  a.tov = b.tov ∧ a.fg_pct = b.fg_pct ∧
  a.reb.isSome = true ∧ b.reb.isSome = true ∧
  a.fg3_pct.isSome = true ∧ b.fg3_pct.isSome = true

/-- Two coerced rows that agree on every field except possibly
rebounds and three-point percentage. -/
def numAgree (a b : NumRow) : Prop :=
  a.player_name = b.player_name ∧ a.gp = b.gp ∧ a.pts = b.pts ∧ a.ast = b.ast ∧
  a.tov = b.tov ∧ a.fg_pct = b.fg_pct

/-- A one-row table, and the same table with different (still
parseable) rebounds and three-point-percentage values. -/
def rowsR1 : List RawRow := [mkRow "A" 20 10]

/-- `rowsR1` with the rebounds and three-point-percentage values changed. -/
def rowsR2 : List RawRow :=
  [{ mkRow "A" 20 10 with reb := some 7, fg3_pct := some (1/4) }]

/-! ### Column minimum and maximum -/

lemma listMin_cons (x : ℚ) (xs : List ℚ) : listMin (x :: xs) = xs.foldl min x := rfl

lemma listMax_cons (x : ℚ) (xs : List ℚ) : listMax (x :: xs) = xs.foldl max x := rfl

lemma foldl_min_le_init (l : List ℚ) (a : ℚ) : l.foldl min a ≤ a := by
  induction l generalizing a with
  | nil => exact le_refl a
  | cons x xs ih => exact le_trans (ih (min a x)) (min_le_left a x)

lemma foldl_min_le_mem {l : List ℚ} {x : ℚ} (hx : x ∈ l) (a : ℚ) : l.foldl min a ≤ x := by
  induction l generalizing a with
  | nil => cases hx
  | cons y ys ih =>
    rcases List.mem_cons.mp hx with rfl | h
    · exact le_trans (foldl_min_le_init ys (min a x)) (min_le_right a x)
    · exact ih h (min a y)

lemma foldl_min_mem (l : List ℚ) (a : ℚ) : l.foldl min a = a ∨ l.foldl min a ∈ l := by
  induction l generalizing a with
  | nil => exact Or.inl rfl
  | cons x xs ih =>
    rcases ih (min a x) with h | h
    · rw [List.foldl_cons, h]
      rcases le_total a x with hax | hxa
      · exact Or.inl (min_eq_left hax)
      · exact Or.inr (by rw [min_eq_right hxa]; exact List.mem_cons_self x xs)
    · exact Or.inr (List.mem_cons_of_mem x h)

lemma init_le_foldl_max (l : List ℚ) (a : ℚ) : a ≤ l.foldl max a := by
  induction l generalizing a with
  | nil => exact le_refl a
  | cons x xs ih => exact le_trans (le_max_left a x) (ih (max a x))

lemma mem_le_foldl_max {l : List ℚ} {x : ℚ} (hx : x ∈ l) (a : ℚ) : x ≤ l.foldl max a := by
  induction l generalizing a with
  | nil => cases hx
  | cons y ys ih =>
    rcases List.mem_cons.mp hx with rfl | h
    · exact le_trans (le_max_right a x) (init_le_foldl_max ys (max a x))
    · exact ih h (max a y)

lemma foldl_max_mem (l : List ℚ) (a : ℚ) : l.foldl max a = a ∨ l.foldl max a ∈ l := by
  induction l generalizing a with
  | nil => exact Or.inl rfl
  | cons x xs ih =>
    rcases ih (max a x) with h | h
    · rw [List.foldl_cons, h]
      rcases le_total a x with hax | hxa
      · exact Or.inr (by rw [max_eq_right hax]; exact List.mem_cons_self x xs)
      · exact Or.inl (max_eq_left hxa)
    · exact Or.inr (List.mem_cons_of_mem x h)

lemma listMin_le_of_mem {xs : List ℚ} {x : ℚ} (h : x ∈ xs) : listMin xs ≤ x := by
  cases xs with
  | nil => cases h
  | cons y ys =>
    rw [listMin_cons]
    rcases List.mem_cons.mp h with rfl | h
    · exact foldl_min_le_init ys x
    · exact foldl_min_le_mem h y

lemma le_listMax_of_mem {xs : List ℚ} {x : ℚ} (h : x ∈ xs) : x ≤ listMax xs := by
  cases xs with
  | nil => cases h
  | cons y ys =>
    rw [listMax_cons]
    rcases List.mem_cons.mp h with rfl | h
    · exact init_le_foldl_max ys x
    · exact mem_le_foldl_max h y

lemma listMin_mem {xs : List ℚ} (h : xs ≠ []) : listMin xs ∈ xs := by
  cases xs with
  | nil => exact absurd rfl h
  | cons y ys =>
    rw [listMin_cons]
    rcases foldl_min_mem ys y with h1 | h1
    · rw [h1]; exact List.mem_cons_self y ys
    · exact List.mem_cons_of_mem y h1

lemma listMax_mem {xs : List ℚ} (h : xs ≠ []) : listMax xs ∈ xs := by
  cases xs with
  | nil => exact absurd rfl h
  | cons y ys =>
    rw [listMax_cons]
    rcases foldl_max_mem ys y with h1 | h1
    · rw [h1]; exact List.mem_cons_self y ys
    · exact List.mem_cons_of_mem y h1

/-! ### The normalization primitive -/

lemma eps_pos : 0 < eps := by norm_num [eps]

lemma norm_eq_map_normVal (xs : List ℚ) : norm xs = xs.map (normVal xs) := rfl

lemma range_den_pos {xs : List ℚ} (h : xs ≠ []) : 0 < listMax xs - listMin xs + eps := by
  have h1 : listMin xs ≤ listMax xs := le_listMax_of_mem (listMin_mem h)
  have h2 := eps_pos
  linarith

lemma normVal_nonneg {xs : List ℚ} {v : ℚ} (hv : v ∈ xs) : 0 ≤ normVal xs v := by
  have hm := listMin_le_of_mem hv
  have hd := range_den_pos (List.ne_nil_of_mem hv)
  exact div_nonneg (by linarith) (le_of_lt hd)

lemma normVal_le_one {xs : List ℚ} {v : ℚ} (hv : v ∈ xs) : normVal xs v ≤ 1 := by
  have hM := le_listMax_of_mem hv
  have hd := range_den_pos (List.ne_nil_of_mem hv)
  have h2 := eps_pos
  rw [normVal, div_le_one hd]
  linarith

lemma mem_norm_unit {xs : List ℚ} {y : ℚ} (hy : y ∈ norm xs) : 0 ≤ y ∧ y ≤ 1 := by
  rw [norm_eq_map_normVal, List.mem_map] at hy
  obtain ⟨v, hv, rfl⟩ := hy
  exact ⟨normVal_nonneg hv, normVal_le_one hv⟩

/-! ### Indexing helpers -/

lemma getD_mem {α : Type} {l : List α} {i : ℕ} (h : i < l.length) (d : α) :
    l.getD i d ∈ l := by
  rw [List.getD_eq_getElem l d h]
  exact List.getElem_mem h

lemma getD_map {α β : Type} (f : α → β) {l : List α} {i : ℕ} (h : i < l.length)
    (d : α) (d' : β) : (l.map f).getD i d' = f (l.getD i d) := by
  rw [List.getD_eq_getElem (l.map f) d' (by simpa using h), List.getD_eq_getElem l d h]
  simp

lemma getD_range {n i : ℕ} (h : i < n) (d : ℕ) : (List.range n).getD i d = i := by
  rw [List.getD_eq_getElem _ _ (by simpa using h)]
  exact List.getElem_range i _

lemma length_norm (xs : List ℚ) : (norm xs).length = xs.length :=
  List.length_map xs _

lemma getD_norm {xs : List ℚ} {i : ℕ} (h : i < xs.length) (d : ℚ) :
    (norm xs).getD i d = normVal xs (xs.getD i 0) := by
  rw [norm_eq_map_normVal]
  exact getD_map (normVal xs) h 0 d

lemma zipWith3_length {α β γ δ : Type} (f : α → β → γ → δ) :
    ∀ (as : List α) (bs : List β) (cs : List γ),
      bs.length = as.length → cs.length = as.length →
      (zipWith3 f as bs cs).length = as.length := by
  intro as
  induction as with
  | nil =>
    intro bs cs h1 h2
    cases bs <;> cases cs <;> simp_all [zipWith3]
  | cons a as ih =>
    intro bs cs h1 h2
    cases bs with
    | nil => simp at h1
    | cons b bs =>
      cases cs with
      | nil => simp at h2
      | cons c cs =>
        simp only [zipWith3, List.length_cons]
        rw [ih bs cs (by simpa using h1) (by simpa using h2)]

lemma getD_zipWith3 {α β γ δ : Type} (f : α → β → γ → δ) :
    ∀ (as : List α) (bs : List β) (cs : List γ) (i : ℕ) (da : α) (db : β) (dc : γ) (dd : δ),
      i < as.length → i < bs.length → i < cs.length →
      (zipWith3 f as bs cs).getD i dd = f (as.getD i da) (bs.getD i db) (cs.getD i dc) := by
  intro as
  induction as with
  | nil => intro bs cs i da db dc dd ha _ _; simp at ha
  | cons a as ih =>
    intro bs cs i da db dc dd ha hb hc
    cases bs with
    | nil => simp at hb
    | cons b bs =>
      cases cs with
      | nil => simp at hc
      | cons c cs =>
        cases i with
        | zero => simp [zipWith3]
        | succ n =>
          simp only [zipWith3, List.getD_cons_succ]
          exact ih bs cs n da db dc dd (by simpa using ha) (by simpa using hb)
            (by simpa using hc)

/-! ### Lengths of the derived columns -/

lemma length_scoringList (rs : List NumRow) : (scoringList rs).length = rs.length := by
  rw [scoringList, length_norm, List.length_map]

lemma length_playmakingList (rs : List NumRow) :
    (playmakingList rs).length = rs.length := by
  rw [playmakingList, length_norm, List.length_map]

lemma length_disciplineList (rs : List NumRow) :
    (disciplineList rs).length = rs.length := by
  rw [disciplineList, length_norm, List.length_map]

lemma length_impactList (rs : List NumRow) : (impactList rs).length = rs.length := by
  rw [impactList, zipWith3_length _ _ _ _
    (by rw [length_playmakingList, length_scoringList])
    (by rw [length_disciplineList, length_scoringList]), length_scoringList]

lemma length_luckList (rs : List NumRow) : (luckList rs).length = rs.length := by
  rw [luckList, length_norm, length_impactList]

lemma length_process (rows : List RawRow) :
    (process rows).length = (survivors rows).length := by
  rw [process, processSurv]
  simp

/-! ### Access to the processed table -/

lemma process_getD (rows : List RawRow) (i : ℕ) (h : i < (survivors rows).length) :
    (process rows).getD i default =
      { player_name := ((survivors rows).getD i default).player_name
        height_m := 2
        weight_kg := 100
        scoring := (scoringList (survivors rows)).getD i 0
        playmaking := (playmakingList (survivors rows)).getD i 0
        discipline := (disciplineList (survivors rows)).getD i 0
        luck_factor := (luckList (survivors rows)).getD i 0
        tier := tier_row (q_low (survivors rows)) (q_high (survivors rows))
          ((impactList (survivors rows)).getD i 0) } := by
  rw [process, processSurv]
  rw [getD_map _ (by simpa using h) 0 default, getD_range h]

lemma mem_process_fields {rows : List RawRow} {p : ProcRow} (hp : p ∈ process rows) :
    ∃ i, i < (survivors rows).length ∧
      p.scoring = (scoringList (survivors rows)).getD i 0 ∧
      p.playmaking = (playmakingList (survivors rows)).getD i 0 ∧
      p.discipline = (disciplineList (survivors rows)).getD i 0 ∧
      p.luck_factor = (luckList (survivors rows)).getD i 0 ∧
      p.tier = tier_row (q_low (survivors rows)) (q_high (survivors rows))
        ((impactList (survivors rows)).getD i 0) := by
  rw [process, processSurv] at hp
  simp only [List.mem_map, List.mem_range] at hp
  obtain ⟨i, hi, rfl⟩ := hp
  exact ⟨i, hi, rfl, rfl, rfl, rfl, rfl⟩

/-! ### Coercion characterization -/

lemma coerceRow_eq_some {raw : RawRow} {nr : NumRow} :
    coerceRow raw = some nr ↔
      (raw.player_name = nr.player_name ∧ raw.gp = nr.gp ∧
       raw.pts = some nr.pts ∧ raw.reb = some nr.reb ∧ raw.ast = some nr.ast ∧
       raw.tov = some nr.tov ∧ raw.fg_pct = some nr.fg_pct ∧
       raw.fg3_pct = some nr.fg3_pct) := by
  obtain ⟨nm, g, pts, reb, ast, tov, fg, fg3⟩ := raw
  obtain ⟨nmn, gn, ptsn, rebn, astn, tovn, fgn, fg3n⟩ := nr
  cases pts <;> cases reb <;> cases ast <;> cases tov <;> cases fg <;> cases fg3 <;>
    simp [coerceRow]

lemma coerceRow_eq_none {raw : RawRow} :
    coerceRow raw = none ↔
      (raw.pts = none ∨ raw.reb = none ∨ raw.ast = none ∨ raw.tov = none ∨
       raw.fg_pct = none ∨ raw.fg3_pct = none) := by
  obtain ⟨nm, g, pts, reb, ast, tov, fg, fg3⟩ := raw
  cases pts <;> cases reb <;> cases ast <;> cases tov <;> cases fg <;> cases fg3 <;>
    simp [coerceRow]

/-! ### Survivor membership -/

lemma mem_survivors {rows : List RawRow} {nr : NumRow} :
    nr ∈ survivors rows ↔ ∃ raw ∈ rows, 15 ≤ raw.gp ∧ coerceRow raw = some nr := by
  rw [survivors]
  simp only [List.mem_filterMap, List.mem_filter, decide_eq_true_eq]
  constructor
  · rintro ⟨raw, ⟨hmem, hgp⟩, hc⟩
    exact ⟨raw, hmem, hgp, hc⟩
  · rintro ⟨raw, hmem, hgp, hc⟩
    exact ⟨raw, ⟨hmem, hgp⟩, hc⟩

lemma survivors_gp {rows : List RawRow} {nr : NumRow} (h : nr ∈ survivors rows) :
    15 ≤ nr.gp := by
  obtain ⟨raw, _, hgp, hc⟩ := mem_survivors.mp h
  have := (coerceRow_eq_some.mp hc).2.1
  rw [← this]
  exact hgp

/-! ### Unit-interval bounds for the derived columns -/

lemma scoringList_getD_unit {rs : List NumRow} {i : ℕ} (h : i < rs.length) :
    0 ≤ (scoringList rs).getD i 0 ∧ (scoringList rs).getD i 0 ≤ 1 := by
  have hm : (scoringList rs).getD i 0 ∈ norm (rs.map (fun r => r.pts + 5 * r.fg_pct)) := by
    rw [← scoringList]
    exact getD_mem (by rw [length_scoringList]; exact h) 0
  exact mem_norm_unit hm

lemma playmakingList_getD_unit {rs : List NumRow} {i : ℕ} (h : i < rs.length) :
    0 ≤ (playmakingList rs).getD i 0 ∧ (playmakingList rs).getD i 0 ≤ 1 := by
  have hm : (playmakingList rs).getD i 0 ∈
      norm (rs.map (fun r => r.ast - (1/2) * r.tov)) := by
    rw [← playmakingList]
    exact getD_mem (by rw [length_playmakingList]; exact h) 0
  exact mem_norm_unit hm

lemma disciplineList_getD_unit {rs : List NumRow} {i : ℕ} (h : i < rs.length) :
    0 ≤ (disciplineList rs).getD i 0 ∧ (disciplineList rs).getD i 0 ≤ 1 := by
  have hm : (disciplineList rs).getD i 0 ∈ norm (rs.map (fun r => -r.tov)) := by
    rw [← disciplineList]
    exact getD_mem (by rw [length_disciplineList]; exact h) 0
  exact mem_norm_unit hm

lemma luckList_getD_unit {rs : List NumRow} {i : ℕ} (h : i < rs.length) :
    0 ≤ (luckList rs).getD i 0 ∧ (luckList rs).getD i 0 ≤ 1 := by
  have hm : (luckList rs).getD i 0 ∈ norm (impactList rs) := by
    rw [← luckList]
    exact getD_mem (by rw [length_luckList]; exact h) 0
  exact mem_norm_unit hm

lemma impactList_getD_eq {rs : List NumRow} {i : ℕ} (h : i < rs.length) :
    (impactList rs).getD i 0 =
      (1/2) * (scoringList rs).getD i 0 + (3/10) * (playmakingList rs).getD i 0 +
      (1/5) * (disciplineList rs).getD i 0 := by
  rw [impactList]
  exact getD_zipWith3 _ (scoringList rs) (playmakingList rs) (disciplineList rs)
    i 0 0 0 0 (by rw [length_scoringList]; exact h)
    (by rw [length_playmakingList]; exact h) (by rw [length_disciplineList]; exact h)

lemma impactList_getD_unit {rs : List NumRow} {i : ℕ} (h : i < rs.length) :
    0 ≤ (impactList rs).getD i 0 ∧ (impactList rs).getD i 0 ≤ 1 := by
  obtain ⟨s0, s1⟩ := scoringList_getD_unit h
  obtain ⟨p0, p1⟩ := playmakingList_getD_unit h
  obtain ⟨d0, d1⟩ := disciplineList_getD_unit h
  rw [impactList_getD_eq h]
  constructor <;> nlinarith

/-! ### Claim theorems -/

/-- C1: every row of the processed output table has its four derived
attributes `scoring`, `playmaking`, `discipline` and `luck_factor`
inside the closed interval [0, 1]. -/
theorem processed_attributes_in_unit_interval (rows : List RawRow) (p : ProcRow)
    (hp : p ∈ process rows) :
    (0 ≤ p.scoring ∧ p.scoring ≤ 1) ∧ (0 ≤ p.playmaking ∧ p.playmaking ≤ 1) ∧
    (0 ≤ p.discipline ∧ p.discipline ≤ 1) ∧
    (0 ≤ p.luck_factor ∧ p.luck_factor ≤ 1) := by
  obtain ⟨i, hi, hs, hpm, hd, hl, _⟩ := mem_process_fields hp
  rw [hs, hpm, hd, hl]
  exact ⟨scoringList_getD_unit hi, playmakingList_getD_unit hi,
    disciplineList_getD_unit hi, luckList_getD_unit hi⟩

lemma survivors_rowsAB : survivors rowsAB = [mkNum "A" 20 10, mkNum "B" 30 20] := by
  norm_num [survivors, rowsAB, mkRow, mkNum, coerceRow, List.filter_cons,
    List.filterMap_cons]

lemma process_rowsAB_length_pos : 0 < (process rowsAB).length := by
  rw [length_process, survivors_rowsAB]
  norm_num

/-- Witness for C1 at a concrete two-row table. -/
theorem processed_attributes_in_unit_interval_witness :
    (0 ≤ ((process rowsAB).getD 0 default).scoring ∧
      ((process rowsAB).getD 0 default).scoring ≤ 1) ∧
    (0 ≤ ((process rowsAB).getD 0 default).playmaking ∧
      ((process rowsAB).getD 0 default).playmaking ≤ 1) ∧
    (0 ≤ ((process rowsAB).getD 0 default).discipline ∧
      ((process rowsAB).getD 0 default).discipline ≤ 1) ∧
    (0 ≤ ((process rowsAB).getD 0 default).luck_factor ∧
      ((process rowsAB).getD 0 default).luck_factor ≤ 1) :=
  processed_attributes_in_unit_interval rowsAB _
    (getD_mem process_rowsAB_length_pos default)

/-- C3: on a nonempty column, `norm` sends each value `v` to
`(v - min) / (max - min + 1e-9)` with `min`/`max` the column's own
extrema; the denominator never vanishes, and an all-equal column is
normalized to 0 everywhere. -/
theorem norm_formula_and_constant_column (xs : List ℚ) (h : xs ≠ []) (i : ℕ)
    (hi : i < xs.length) :
    (norm xs).getD i 0 = (xs.getD i 0 - listMin xs) / (listMax xs - listMin xs + eps) ∧
    listMin xs ∈ xs ∧ (∀ x ∈ xs, listMin xs ≤ x) ∧
    listMax xs ∈ xs ∧ (∀ x ∈ xs, x ≤ listMax xs) ∧
    listMax xs - listMin xs + eps ≠ 0 ∧
    (∀ c, (∀ x ∈ xs, x = c) → ∀ y ∈ norm xs, y = 0) := by
  refine ⟨(getD_norm hi 0).trans (by rw [normVal]), listMin_mem h,
    fun x hx => listMin_le_of_mem hx, listMax_mem h,
    fun x hx => le_listMax_of_mem hx, ne_of_gt (range_den_pos h), ?_⟩
  intro c hc y hy
  rw [norm_eq_map_normVal, List.mem_map] at hy
  obtain ⟨v, hv, rfl⟩ := hy
  rw [normVal, hc v hv, hc _ (listMin_mem h), sub_self, zero_div]

/-- Witness for C3: the all-equal three-row column of the spec. -/
theorem norm_formula_and_constant_column_witness :
    (norm [10, 10, 10]).getD 0 0 =
      ((([10, 10, 10] : List ℚ).getD 0 0) - listMin [10, 10, 10]) /
        (listMax [10, 10, 10] - listMin [10, 10, 10] + eps) ∧
    listMin [10, 10, 10] ∈ ([10, 10, 10] : List ℚ) ∧
    (∀ x ∈ ([10, 10, 10] : List ℚ), listMin [10, 10, 10] ≤ x) ∧
    listMax [10, 10, 10] ∈ ([10, 10, 10] : List ℚ) ∧
    (∀ x ∈ ([10, 10, 10] : List ℚ), x ≤ listMax [10, 10, 10]) ∧
    listMax [10, 10, 10] - listMin [10, 10, 10] + eps ≠ 0 ∧
    (∀ c, (∀ x ∈ ([10, 10, 10] : List ℚ), x = c) → ∀ y ∈ norm [10, 10, 10], y = 0) :=
  norm_formula_and_constant_column [10, 10, 10] (by simp) 0 (by simp)

/-- C5: each surviving row's `impact_raw` is exactly
`0.5 * scoring + 0.3 * playmaking + 0.2 * discipline` where the three
summands are the row's processed attributes, and it lies in [0, 1]. -/
theorem impact_raw_convex_combination (rows : List RawRow) (i : ℕ)
    (h : i < (survivors rows).length) :
    (impactList (survivors rows)).getD i 0 =
      (1/2) * ((process rows).getD i default).scoring +
      (3/10) * ((process rows).getD i default).playmaking +
      (1/5) * ((process rows).getD i default).discipline ∧
    0 ≤ (impactList (survivors rows)).getD i 0 ∧
    (impactList (survivors rows)).getD i 0 ≤ 1 := by
  refine ⟨?_, (impactList_getD_unit h).1, (impactList_getD_unit h).2⟩
  rw [process_getD rows i h, impactList_getD_eq h]

lemma survivors_rowsAB_length_pos : 0 < (survivors rowsAB).length := by
  rw [survivors_rowsAB]
  norm_num

/-- Witness for C5 at a concrete two-row table. -/
theorem impact_raw_convex_combination_witness :
    (impactList (survivors rowsAB)).getD 0 0 =
      (1/2) * ((process rowsAB).getD 0 default).scoring +
      (3/10) * ((process rowsAB).getD 0 default).playmaking +
      (1/5) * ((process rowsAB).getD 0 default).discipline ∧
    0 ≤ (impactList (survivors rowsAB)).getD 0 0 ∧
    (impactList (survivors rowsAB)).getD 0 0 ≤ 1 :=
  impact_raw_convex_combination rowsAB 0 survivors_rowsAB_length_pos

/-- C8: the empty raw table is valid input: the whole pipeline runs
and produces the empty processed table. -/
theorem empty_table_yields_empty_output : process [] = [] ∧ transform [] = ([], []) :=
  ⟨rfl, rfl⟩

/-! ### Degenerate one-row batch -/

lemma norm_singleton (v : ℚ) : norm [v] = [0] := by
  have h : listMin [v] = v := rfl
  have hM : listMax [v] = v := rfl
  rw [norm_eq_map_normVal, List.map_cons, List.map_nil, normVal, h, hM, sub_self,
    zero_div]

lemma scoringList_single (r : NumRow) : scoringList [r] = [0] := by
  rw [scoringList, List.map_cons, List.map_nil, norm_singleton]

lemma playmakingList_single (r : NumRow) : playmakingList [r] = [0] := by
  rw [playmakingList, List.map_cons, List.map_nil, norm_singleton]

lemma disciplineList_single (r : NumRow) : disciplineList [r] = [0] := by
  rw [disciplineList, List.map_cons, List.map_nil, norm_singleton]

lemma impactList_single (r : NumRow) : impactList [r] = [0] := by
  rw [impactList, scoringList_single, playmakingList_single, disciplineList_single]
  norm_num [zipWith3]

lemma quantile_singleton (x q : ℚ) : quantile [x] q = x := by
  simp [quantile, List.insertionSort, List.orderedInsert]

lemma survivors_rowsSolo : survivors rowsSolo = [mkNum "solo" 20 10] := by
  norm_num [survivors, rowsSolo, mkRow, mkNum, coerceRow, List.filter_cons,
    List.filterMap_cons]

lemma tier_row_cases (ql qh im : ℚ) :
    (tier_row ql qh im = "bust" ∨ tier_row ql qh im = "star" ∨
      tier_row ql qh im = "role_player") ∧
    (tier_row ql qh im = "bust" ↔ im ≤ ql) ∧
    (tier_row ql qh im = "star" ↔ (¬ im ≤ ql ∧ qh ≤ im)) ∧
    (tier_row ql qh im = "role_player" ↔ (¬ im ≤ ql ∧ ¬ qh ≤ im)) := by
  by_cases h1 : im ≤ ql
  · have ht : tier_row ql qh im = "bust" := by rw [tier_row, if_pos h1]
    rw [ht]
    exact ⟨Or.inl rfl, iff_of_true rfl h1,
      iff_of_false (by decide) (fun hc => hc.1 h1),
      iff_of_false (by decide) (fun hc => hc.1 h1)⟩
  · by_cases h2 : qh ≤ im
    · have ht : tier_row ql qh im = "star" := by
        rw [tier_row, if_neg h1, if_pos h2]
      rw [ht]
      exact ⟨Or.inr (Or.inl rfl), iff_of_false (by decide) h1,
        iff_of_true rfl ⟨h1, h2⟩, iff_of_false (by decide) (fun hc => hc.2 h2)⟩
    · have ht : tier_row ql qh im = "role_player" := by
        rw [tier_row, if_neg h1, if_neg h2]
      rw [ht]
      exact ⟨Or.inr (Or.inr rfl), iff_of_false (by decide) h1,
        iff_of_false (by decide) (fun hc => h2 hc.2), iff_of_true rfl ⟨h1, h2⟩⟩

/-- C2 counterexample: in a one-row batch the single surviving row's
`impact_raw` is at or above the batch's 80th percentile, yet the code
assigns it tier "bust", not "star": the `impact_raw ≤ q20` branch
takes precedence. -/
theorem tier_star_lower_bound_fails :
    q_high (survivors rowsSolo) ≤ (impactList (survivors rowsSolo)).getD 0 0 ∧
    ((process rowsSolo).getD 0 default).tier = "bust" ∧
    ("bust" : String) ≠ "star" := by
  have h1 : survivors rowsSolo = [mkNum "solo" 20 10] := survivors_rowsSolo
  have him : impactList (survivors rowsSolo) = [0] := by
    rw [h1, impactList_single]
  have hqh : q_high (survivors rowsSolo) = 0 := by
    rw [q_high, him, quantile_singleton]
  have hql : q_low (survivors rowsSolo) = 0 := by
    rw [q_low, him, quantile_singleton]
  have hlen : 0 < (survivors rowsSolo).length := by rw [h1]; norm_num
  refine ⟨by rw [hqh, him]; norm_num, ?_, by decide⟩
  rw [process_getD rowsSolo 0 hlen]
  show tier_row (q_low (survivors rowsSolo)) (q_high (survivors rowsSolo))
    ((impactList (survivors rowsSolo)).getD 0 0) = "bust"
  rw [hql, hqh, him]
  norm_num [tier_row]

/-- C2 (amended): for each surviving row, the assigned tier is "bust"
exactly when its `impact_raw` is at or below the batch's 20th
percentile; "star" exactly when it is at or above the 80th percentile
but not at or below the 20th (the "bust" branch takes precedence when
the two percentiles coincide); and "role_player" exactly otherwise.
Each row receives exactly one of the three labels, so the tiers
partition the surviving rows. -/
theorem tier_partition_with_bust_precedence (rows : List RawRow) (i : ℕ)
    (h : i < (survivors rows).length) :
    (((process rows).getD i default).tier = "bust" ∨
     ((process rows).getD i default).tier = "star" ∨
     ((process rows).getD i default).tier = "role_player") ∧
    (((process rows).getD i default).tier = "bust" ↔
      (impactList (survivors rows)).getD i 0 ≤ q_low (survivors rows)) ∧
    (((process rows).getD i default).tier = "star" ↔
      (¬ (impactList (survivors rows)).getD i 0 ≤ q_low (survivors rows) ∧
        q_high (survivors rows) ≤ (impactList (survivors rows)).getD i 0)) ∧
    (((process rows).getD i default).tier = "role_player" ↔
      (¬ (impactList (survivors rows)).getD i 0 ≤ q_low (survivors rows) ∧
        ¬ q_high (survivors rows) ≤ (impactList (survivors rows)).getD i 0)) := by
  rw [process_getD rows i h]
  exact tier_row_cases _ _ _

lemma survivors_rowsSolo_length_pos : 0 < (survivors rowsSolo).length := by
  rw [survivors_rowsSolo]
  norm_num

/-- Witness for the amended C2 at the concrete one-row batch. -/
theorem tier_partition_with_bust_precedence_witness :
    (((process rowsSolo).getD 0 default).tier = "bust" ∨
     ((process rowsSolo).getD 0 default).tier = "star" ∨
     ((process rowsSolo).getD 0 default).tier = "role_player") ∧
    (((process rowsSolo).getD 0 default).tier = "bust" ↔
      (impactList (survivors rowsSolo)).getD 0 0 ≤ q_low (survivors rowsSolo)) ∧
    (((process rowsSolo).getD 0 default).tier = "star" ↔
      (¬ (impactList (survivors rowsSolo)).getD 0 0 ≤ q_low (survivors rowsSolo) ∧
        q_high (survivors rowsSolo) ≤ (impactList (survivors rowsSolo)).getD 0 0)) ∧
    (((process rowsSolo).getD 0 default).tier = "role_player" ↔
      (¬ (impactList (survivors rowsSolo)).getD 0 0 ≤ q_low (survivors rowsSolo) ∧
        ¬ q_high (survivors rowsSolo) ≤ (impactList (survivors rowsSolo)).getD 0 0)) :=
  tier_partition_with_bust_precedence rowsSolo 0 survivors_rowsSolo_length_pos

/-- C4: each processed row's attributes are computed exactly as
`scoring = norm(points + 5 * fg_pct)`,
`playmaking = norm(assists - 0.5 * turnovers)`,
`discipline = norm(-turnovers)` and `luck_factor = norm(impact_raw)`,
each normalization taken over the surviving batch's own column;
`luck_factor` is the deterministic rescaling `normVal` of the row's
`impact_raw` — no randomness enters. -/
theorem derived_attribute_formulas (rows : List RawRow) (i : ℕ)
    (h : i < (survivors rows).length) :
    ((process rows).getD i default).scoring =
      normVal ((survivors rows).map (fun r => r.pts + 5 * r.fg_pct))
        (((survivors rows).getD i default).pts +
          5 * ((survivors rows).getD i default).fg_pct) ∧
    ((process rows).getD i default).playmaking =
      normVal ((survivors rows).map (fun r => r.ast - (1/2) * r.tov))
        (((survivors rows).getD i default).ast -
          (1/2) * ((survivors rows).getD i default).tov) ∧
    ((process rows).getD i default).discipline =
      normVal ((survivors rows).map (fun r => -r.tov))
        (-((survivors rows).getD i default).tov) ∧
    ((process rows).getD i default).luck_factor =
      normVal (impactList (survivors rows)) ((impactList (survivors rows)).getD i 0) := by
  rw [process_getD rows i h]
  refine ⟨?_, ?_, ?_, ?_⟩
  · show (scoringList (survivors rows)).getD i 0 = _
    rw [scoringList, getD_norm (by rw [List.length_map]; exact h) 0,
      getD_map _ h default 0]
  · show (playmakingList (survivors rows)).getD i 0 = _
    rw [playmakingList, getD_norm (by rw [List.length_map]; exact h) 0,
      getD_map _ h default 0]
  · show (disciplineList (survivors rows)).getD i 0 = _
    rw [disciplineList, getD_norm (by rw [List.length_map]; exact h) 0,
      getD_map _ h default 0]
  · show (luckList (survivors rows)).getD i 0 = _
    rw [luckList, getD_norm (by rw [length_impactList]; exact h) 0]

/-- Witness for C4 at a concrete two-row table. -/
theorem derived_attribute_formulas_witness :
    ((process rowsAB).getD 0 default).scoring =
      normVal ((survivors rowsAB).map (fun r => r.pts + 5 * r.fg_pct))
        (((survivors rowsAB).getD 0 default).pts +
          5 * ((survivors rowsAB).getD 0 default).fg_pct) ∧
    ((process rowsAB).getD 0 default).playmaking =
      normVal ((survivors rowsAB).map (fun r => r.ast - (1/2) * r.tov))
        (((survivors rowsAB).getD 0 default).ast -
          (1/2) * ((survivors rowsAB).getD 0 default).tov) ∧
    ((process rowsAB).getD 0 default).discipline =
      normVal ((survivors rowsAB).map (fun r => -r.tov))
        (-((survivors rowsAB).getD 0 default).tov) ∧
    ((process rowsAB).getD 0 default).luck_factor =
      normVal (impactList (survivors rowsAB)) ((impactList (survivors rowsAB)).getD 0 0) :=
  derived_attribute_formulas rowsAB 0 survivors_rowsAB_length_pos

lemma survivors_rowsGP : survivors rowsGP = [mkNum "b" 20 1, mkNum "c" 30 1] := by
  norm_num [survivors, rowsGP, mkRow, mkNum, coerceRow, List.filter_cons,
    List.filterMap_cons]

/-- C6: a coerced row appears among the survivors exactly when some
raw row with games-played at least 15 coerces to it, every survivor
has games-played at least 15, and on the spec's [10, 20, 30] example
exactly the rows with 20 and 30 games survive. -/
theorem volume_filter_keeps_gp_at_least_15 (rows : List RawRow) (nr : NumRow) :
    (nr ∈ survivors rows ↔ ∃ raw ∈ rows, 15 ≤ raw.gp ∧ coerceRow raw = some nr) ∧
    (nr ∈ survivors rows → 15 ≤ nr.gp) ∧
    (survivors rowsGP).map NumRow.gp = [20, 30] := by
  refine ⟨mem_survivors, fun h => survivors_gp h, ?_⟩
  rw [survivors_rowsGP]
  norm_num [mkNum]

/-- Witness for C6: a concrete surviving row with games-played 20. -/
theorem volume_filter_keeps_gp_at_least_15_witness :
    mkNum "w" 20 1 ∈ survivors [mkRow "w" 20 1] ∧ 15 ≤ (mkNum "w" 20 1).gp :=
  have hmem : mkNum "w" 20 1 ∈ survivors [mkRow "w" 20 1] :=
    (volume_filter_keeps_gp_at_least_15 [mkRow "w" 20 1] (mkNum "w" 20 1)).1.mpr
      ⟨mkRow "w" 20 1, by simp, by norm_num [mkRow], rfl⟩
  ⟨hmem, (volume_filter_keeps_gp_at_least_15 [mkRow "w" 20 1] (mkNum "w" 20 1)).2.1 hmem⟩

/-- C7: a raw row with any unparseable numeric field coerces to
nothing, and appending such a row to any batch (even one passing the
volume filter) leaves the processed output unchanged: the row is
dropped silently, with no partial substitution and no error value. -/
theorem malformed_row_dropped_silently (raw : RawRow)
    (hbad : raw.pts = none ∨ raw.reb = none ∨ raw.ast = none ∨ raw.tov = none ∨
      raw.fg_pct = none ∨ raw.fg3_pct = none) :
    coerceRow raw = none ∧
    (∀ nr : NumRow, coerceRow raw ≠ some nr) ∧
    ∀ rows : List RawRow, process (rows ++ [raw]) = process rows := by
  have hn : coerceRow raw = none := coerceRow_eq_none.mpr hbad
  refine ⟨hn, fun nr h => ?_, fun rows => ?_⟩
  · rw [hn] at h
    cases h
  have hs : survivors (rows ++ [raw]) = survivors rows := by
    rw [survivors, survivors, List.filter_append, List.filterMap_append]
    by_cases hg : (15:ℚ) ≤ raw.gp
    · simp [List.filter_cons, hg, List.filterMap_cons, hn]
    · simp [List.filter_cons, hg]
  rw [process, process, hs]

/-- Witness for C7: appending the unparseable `badRow` to the sample
table leaves the processed output unchanged. -/
theorem malformed_row_dropped_silently_witness :
    coerceRow badRow = none ∧ process (rowsAB ++ [badRow]) = process rowsAB :=
  ⟨(malformed_row_dropped_silently badRow (Or.inl rfl)).1,
   (malformed_row_dropped_silently badRow (Or.inl rfl)).2.2 rowsAB⟩

/-! ### Raw passthrough -/

lemma map_range_getD {β : Type} (g : NumRow → β) (rs : List NumRow) :
    (List.range rs.length).map (fun i => g (rs.getD i default)) = rs.map g := by
  apply List.ext_getElem
  · simp
  · intro i h1 h2
    simp only [List.getElem_map, List.getElem_range]
    rw [List.getD_eq_getElem rs default (by simpa using h2)]

lemma process_names (rows : List RawRow) :
    (process rows).map ProcRow.player_name =
      (survivors rows).map NumRow.player_name := by
  rw [process, processSurv, List.map_map]
  exact map_range_getD NumRow.player_name (survivors rows)

lemma survivors_rows9 : survivors rows9 = [mkNum "hi" 20 1] := by
  norm_num [survivors, rows9, mkRow, mkNum, coerceRow, List.filter_cons,
    List.filterMap_cons]

/-- C9: the raw table written to `players_raw.csv` is the fetched
table verbatim — it contains every fetched row, including those the
games-played filter or coercion later removes — while the processed
table lists exactly the surviving rows (each with games-played at
least 15). -/
theorem raw_table_unchanged (rows : List RawRow) :
    (transform rows).1 = rows ∧
    (∀ raw ∈ rows, raw ∈ (transform rows).1) ∧
    (transform rows).2.map ProcRow.player_name =
      (survivors rows).map NumRow.player_name ∧
    (∀ nr ∈ survivors rows, 15 ≤ nr.gp) := by
  exact ⟨rfl, fun raw h => h, process_names rows, fun nr h => survivors_gp h⟩

/-- Witness for C9: a filtered-out row (games-played 5) is still in
the raw output but absent from the processed output. -/
theorem raw_table_unchanged_witness :
    (transform rows9).1 = rows9 ∧ mkRow "low" 5 1 ∈ (transform rows9).1 ∧
    "low" ∉ (transform rows9).2.map ProcRow.player_name := by
  have h := raw_table_unchanged rows9
  refine ⟨h.1, h.2.1 (mkRow "low" 5 1) (by simp [rows9]), ?_⟩
  have hn : (transform rows9).2.map ProcRow.player_name = ["hi"] := by
    show (process rows9).map ProcRow.player_name = ["hi"]
    rw [process_names rows9, survivors_rows9]
    simp [mkNum]
  rw [hn]
  decide

/-! ### Noninterference of rebounds and three-point percentage -/

lemma filter_forall₂ {l1 l2 : List RawRow} (h : List.Forall₂ rawAgree l1 l2) :
    List.Forall₂ rawAgree (l1.filter (fun r => 15 ≤ r.gp))
      (l2.filter (fun r => 15 ≤ r.gp)) := by
  induction h with
  | nil => exact List.Forall₂.nil
  | cons hab h ih =>
    rename_i a b as bs
    rw [List.filter_cons, List.filter_cons]
    have hgp : a.gp = b.gp := hab.2.1
    by_cases hg : (15:ℚ) ≤ a.gp
    · rw [if_pos (by simp [hg]), if_pos (by simp [← hgp, hg])]
      exact List.Forall₂.cons hab ih
    · rw [if_neg (by simp [hg]), if_neg (by simp [← hgp, hg])]
      exact ih

lemma coerce_agree {a b : RawRow} (hab : rawAgree a b) :
    (coerceRow a = none ∧ coerceRow b = none) ∨
    ∃ na nb, coerceRow a = some na ∧ coerceRow b = some nb ∧ numAgree na nb := by
  obtain ⟨h1, h2, h3, h4, h5, h6, ha7, hb7, ha8, hb8⟩ := hab
  obtain ⟨ra, hra⟩ := Option.isSome_iff_exists.mp ha7
  obtain ⟨rb, hrb⟩ := Option.isSome_iff_exists.mp hb7
  obtain ⟨fa, hfa⟩ := Option.isSome_iff_exists.mp ha8
  obtain ⟨fb, hfb⟩ := Option.isSome_iff_exists.mp hb8
  cases hpts : a.pts with
  | none =>
    exact Or.inl ⟨coerceRow_eq_none.mpr (Or.inl hpts),
      coerceRow_eq_none.mpr (Or.inl (h3 ▸ hpts))⟩
  | some p =>
    cases hast : a.ast with
    | none =>
      exact Or.inl ⟨coerceRow_eq_none.mpr (Or.inr (Or.inr (Or.inl hast))),
        coerceRow_eq_none.mpr (Or.inr (Or.inr (Or.inl (h4 ▸ hast))))⟩
    | some s =>
      cases htov : a.tov with
      | none =>
        exact Or.inl ⟨coerceRow_eq_none.mpr (Or.inr (Or.inr (Or.inr (Or.inl htov)))),
          coerceRow_eq_none.mpr (Or.inr (Or.inr (Or.inr (Or.inl (h5 ▸ htov)))))⟩
      | some t =>
        cases hfg : a.fg_pct with
        | none =>
          exact Or.inl
            ⟨coerceRow_eq_none.mpr (Or.inr (Or.inr (Or.inr (Or.inr (Or.inl hfg))))),
             coerceRow_eq_none.mpr
               (Or.inr (Or.inr (Or.inr (Or.inr (Or.inl (h6 ▸ hfg))))))⟩
        | some f =>
          refine Or.inr ⟨⟨a.player_name, a.gp, p, ra, s, t, f, fa⟩,
            ⟨b.player_name, b.gp, p, rb, s, t, f, fb⟩, ?_, ?_, ?_⟩
          · exact coerceRow_eq_some.mpr ⟨rfl, rfl, hpts, hra, hast, htov, hfg, hfa⟩
          · exact coerceRow_eq_some.mpr
              ⟨rfl, rfl, h3 ▸ hpts, hrb, h4 ▸ hast, h5 ▸ htov, h6 ▸ hfg, hfb⟩
          · exact ⟨h1, h2, rfl, rfl, rfl, rfl⟩

lemma filterMap_coerce_forall₂ {l1 l2 : List RawRow}
    (h : List.Forall₂ rawAgree l1 l2) :
    List.Forall₂ numAgree (l1.filterMap coerceRow) (l2.filterMap coerceRow) := by
  induction h with
  | nil => exact List.Forall₂.nil
  | cons hab h ih =>
    rename_i a b as bs
    rw [List.filterMap_cons, List.filterMap_cons]
    rcases coerce_agree hab with ⟨hna, hnb⟩ | ⟨na, nb, hna, hnb, hagree⟩
    · rw [hna, hnb]
      exact ih
    · rw [hna, hnb]
      exact List.Forall₂.cons hagree ih

lemma survivors_agree {l1 l2 : List RawRow} (h : List.Forall₂ rawAgree l1 l2) :
    List.Forall₂ numAgree (survivors l1) (survivors l2) :=
  filterMap_coerce_forall₂ (filter_forall₂ h)

lemma map_eq_of_forall₂ {β : Type} (f : NumRow → β)
    (hf : ∀ a b, numAgree a b → f a = f b) {l1 l2 : List NumRow}
    (h : List.Forall₂ numAgree l1 l2) : l1.map f = l2.map f := by
  induction h with
  | nil => rfl
  | cons hab h ih =>
    rename_i a b as bs
    rw [List.map_cons, List.map_cons, hf a b hab, ih]

lemma scoringList_agree {l1 l2 : List NumRow} (h : List.Forall₂ numAgree l1 l2) :
    scoringList l1 = scoringList l2 := by
  rw [scoringList, scoringList,
    map_eq_of_forall₂ _ (fun a b hab => by rw [hab.2.2.1, hab.2.2.2.2.2]) h]

lemma playmakingList_agree {l1 l2 : List NumRow} (h : List.Forall₂ numAgree l1 l2) :
    playmakingList l1 = playmakingList l2 := by
  rw [playmakingList, playmakingList,
    map_eq_of_forall₂ _ (fun a b hab => by rw [hab.2.2.2.1, hab.2.2.2.2.1]) h]

lemma disciplineList_agree {l1 l2 : List NumRow} (h : List.Forall₂ numAgree l1 l2) :
    disciplineList l1 = disciplineList l2 := by
  rw [disciplineList, disciplineList,
    map_eq_of_forall₂ _ (fun a b hab => by rw [hab.2.2.2.2.1]) h]

lemma impactList_agree {l1 l2 : List NumRow} (h : List.Forall₂ numAgree l1 l2) :
    impactList l1 = impactList l2 := by
  rw [impactList, impactList, scoringList_agree h, playmakingList_agree h,
    disciplineList_agree h]

lemma getD_name_agree {l1 l2 : List NumRow} (h : List.Forall₂ numAgree l1 l2)
    {i : ℕ} (hi : i < l1.length) :
    (l1.getD i default).player_name = (l2.getD i default).player_name := by
  have hi2 : i < l2.length := h.length_eq ▸ hi
  have hpt := (List.forall₂_iff_get.mp h).2 i hi hi2
  rw [List.getD_eq_getElem _ _ hi, List.getD_eq_getElem _ _ hi2]
  exact hpt.1

lemma processSurv_agree {l1 l2 : List NumRow} (h : List.Forall₂ numAgree l1 l2) :
    processSurv l1 = processSurv l2 := by
  have hlen := h.length_eq
  have hsc := scoringList_agree h
  have hpm := playmakingList_agree h
  have hdc := disciplineList_agree h
  have him := impactList_agree h
  have hlk : luckList l1 = luckList l2 := by rw [luckList, luckList, him]
  have hql : q_low l1 = q_low l2 := by rw [q_low, q_low, him]
  have hqh : q_high l1 = q_high l2 := by rw [q_high, q_high, him]
  rw [processSurv, processSurv, hsc, hpm, hdc, him, hlk, hql, hqh, hlen]
  apply List.map_congr_left
  intro i hi
  have hi1 : i < l1.length := hlen ▸ List.mem_range.mp hi
  rw [getD_name_agree h hi1]

/-- C10: two raw tables identical except for their rebounds and
three-point-percentage values, with those values parseable in both,
produce identical processed output: the two fields affect only a
row's survival through parseability, never a derived attribute or
the tier. -/
theorem reb_fg3_noninterference (rows1 rows2 : List RawRow)
    (h : List.Forall₂ rawAgree rows1 rows2) :
    process rows1 = process rows2 := by
  rw [process, process]
  exact processSurv_agree (survivors_agree h)

/-- Witness for C10: changing the one row's rebounds from 3 to 7 and
its three-point percentage from 1/3 to 1/4 leaves the processed
output unchanged. -/
theorem reb_fg3_noninterference_witness : process rowsR1 = process rowsR2 :=
  reb_fg3_noninterference rowsR1 rowsR2
    (List.Forall₂.cons ⟨rfl, rfl, rfl, rfl, rfl, rfl, rfl, rfl, rfl, rfl⟩
      List.Forall₂.nil)
